import Mathlib

/-!
Verification of `pycoatl/spatialdata/spatialdatawrapper.py`.

The development shallowly embeds the wrapper module: numpy float64 scalars
are modelled as `Option ℝ` (`none` standing for a value that is not a
finite real, i.e. NaN; the model does not distinguish infinities from NaN),
numpy arrays as Lean lists, Python dictionaries as association lists, and
Python exceptions as `Except String`.  The external `SpatialData` container
(`pycoatl.spatialdata.spatialdata`, not part of the sources) and the
external pyvista mesh operations (`sample`, `point_neighbors_levels`) are
modelled from the specification's interface description; the pyvista
operations are abstract parameters of the embedded functions.
-/

set_option maxHeartbeats 1000000

open Matrix

/-- A numpy float64 scalar: `some x` is the finite real `x`, `none` is a
value that is not a finite real (NaN; infinities are collapsed into `none`
as well, see the module comment). -/
abbrev NFloat := Option ℝ

/-- numpy addition on float64: NaN propagates. -/
def nadd (a b : NFloat) : NFloat :=
  match a, b with
  | some x, some y => some (x + y)
  | _, _ => none

/-- numpy multiplication on float64: NaN propagates. -/
def nmul (a b : NFloat) : NFloat :=
  match a, b with
  | some x, some y => some (x * y)
  | _, _ => none

/-- `np.sqrt`: NaN propagates, a negative argument gives NaN. -/
noncomputable def nsqrt (a : NFloat) : NFloat :=
  match a with
  | some x => if x < 0 then none else some (Real.sqrt x)
  | none => none

/-- `np.log`: NaN propagates; a negative argument gives NaN and a zero
argument gives negative infinity, both of which are `none` ("not a finite
real") in this model. -/
noncomputable def nlog (a : NFloat) : NFloat :=
  match a with
  | some x => if x ≤ 0 then none else some (Real.log x)
  | none => none

/-- The real-valued argument of the square root in the `exx` strain
(source line 125): `1 + 2*dudx + dudx**2 + dudy**2`. -/
def exx_sqrt_arg (dudx dudy : ℝ) : ℝ := 1 + 2 * dudx + dudx ^ 2 + dudy ^ 2

/-- The real-valued argument of the square root in the `eyy` strain
(source line 127): `1 + 2*dvdy + dvdx**2 + dvdy**2`. -/
def eyy_sqrt_arg (dvdx dvdy : ℝ) : ℝ := 1 + 2 * dvdy + dvdx ^ 2 + dvdy ^ 2

/-- The float64-level square-root argument of `exx`, as written in the
source: `1 + 2*dudx + dudx**2 + dudy**2` (left associated). -/
def exx_arg (dudx dudy : NFloat) : NFloat :=
  nadd (nadd (nadd (some 1) (nmul (some 2) dudx)) (nmul dudx dudx)) (nmul dudy dudy)

/-- The float64-level square-root argument of `eyy`, as written in the
source: `1 + 2*dvdy + dvdx**2 + dvdy**2` (left associated). -/
def eyy_arg (dvdx dvdy : NFloat) : NFloat :=
  nadd (nadd (nadd (some 1) (nmul (some 2) dvdy)) (nmul dvdx dvdx)) (nmul dvdy dvdy)

/-- `euler_almansi_n` (source lines 118-130): pointwise strain from the four
displacement-gradient components.
`exx = log (sqrt (1 + 2*dudx + dudx**2 + dudy**2))`,
`eyy = log (sqrt (1 + 2*dvdy + dvdx**2 + dvdy**2))`,
`exy = dvdx*(1+dudx) + dudy*(1+dvdy)`. -/
noncomputable def euler_almansi_n (dudx dudy dvdx dvdy : NFloat) :
    NFloat × NFloat × NFloat :=
  (nlog (nsqrt (exx_arg dudx dudy)),
   nlog (nsqrt (eyy_arg dvdx dvdy)),
   nadd (nmul dvdx (nadd (some 1) dudx)) (nmul dudy (nadd (some 1) dvdy)))

lemma nadd_none_left (b : NFloat) : nadd none b = none := by cases b <;> rfl

lemma nadd_none_right (a : NFloat) : nadd a none = none := by cases a <;> rfl

lemma nmul_none_left (b : NFloat) : nmul none b = none := by cases b <;> rfl

lemma nmul_none_right (a : NFloat) : nmul a none = none := by cases a <;> rfl

lemma exx_arg_some (a b : ℝ) :
    exx_arg (some a) (some b) = some (exx_sqrt_arg a b) := by
  simp only [exx_arg, nadd, nmul, exx_sqrt_arg]
  ring_nf

lemma eyy_arg_some (c d : ℝ) :
    eyy_arg (some c) (some d) = some (eyy_sqrt_arg c d) := by
  simp only [eyy_arg, nadd, nmul, eyy_sqrt_arg]
  ring_nf

lemma exx_sqrt_arg_eq_sq (a b : ℝ) : exx_sqrt_arg a b = (1 + a) ^ 2 + b ^ 2 := by
  simp only [exx_sqrt_arg]; ring

lemma eyy_sqrt_arg_eq_sq (c d : ℝ) : eyy_sqrt_arg c d = (1 + d) ^ 2 + c ^ 2 := by
  simp only [eyy_sqrt_arg]; ring

/-- C10: for all real (non-NaN) gradient inputs, the argument of each square
root in `euler_almansi_n` is nonnegative — it equals `(1+dudx)^2 + dudy^2`
(resp. `(1+dvdy)^2 + dvdx^2`) — so `np.sqrt` is never applied to a negative
number inside the strain calculator and never produces NaN there. -/
theorem euler_almansi_sqrt_arg_nonneg (a b c d : ℝ) :
    (0 ≤ exx_sqrt_arg a b ∧ exx_sqrt_arg a b = (1 + a) ^ 2 + b ^ 2 ∧
      exx_arg (some a) (some b) = some (exx_sqrt_arg a b) ∧
      nsqrt (exx_arg (some a) (some b)) = some (Real.sqrt (exx_sqrt_arg a b))) ∧
    (0 ≤ eyy_sqrt_arg c d ∧ eyy_sqrt_arg c d = (1 + d) ^ 2 + c ^ 2 ∧
      eyy_arg (some c) (some d) = some (eyy_sqrt_arg c d) ∧
      nsqrt (eyy_arg (some c) (some d)) = some (Real.sqrt (eyy_sqrt_arg c d))) := by
  have hx : 0 ≤ exx_sqrt_arg a b := by
    rw [exx_sqrt_arg_eq_sq]; positivity
  have hy : 0 ≤ eyy_sqrt_arg c d := by
    rw [eyy_sqrt_arg_eq_sq]; positivity
  refine ⟨⟨hx, exx_sqrt_arg_eq_sq a b, exx_arg_some a b, ?_⟩,
          ⟨hy, eyy_sqrt_arg_eq_sq c d, eyy_arg_some c d, ?_⟩⟩
  · rw [exx_arg_some]; simp [nsqrt, not_lt.mpr hx]
  · rw [eyy_arg_some]; simp [nsqrt, not_lt.mpr hy]

/-- C9: all-zero displacement gradients produce `exx = eyy = exy = 0`
exactly in the strain calculator. -/
theorem euler_almansi_zero :
    euler_almansi_n (some 0) (some 0) (some 0) (some 0) =
      (some 0, some 0, some 0) := by
  have h1 : exx_arg (some 0) (some 0) = some 1 := by
    rw [exx_arg_some]; norm_num [exx_sqrt_arg]
  have h2 : eyy_arg (some 0) (some 0) = some 1 := by
    rw [eyy_arg_some]; norm_num [eyy_sqrt_arg]
  simp only [euler_almansi_n, h1, h2, nsqrt, nadd, nmul]
  norm_num [Real.sqrt_one, nlog, Real.log_one]

/-- C8: for every point the strain calculator computes the three outputs
pointwise as `exx = log (sqrt (1 + 2*dudx + dudx^2 + dudy^2))`,
`eyy = log (sqrt (1 + 2*dvdy + dvdx^2 + dvdy^2))`,
`exy = dvdx*(1+dudx) + dudy*(1+dvdy)` (for real inputs whose square-root
arguments are positive, the only case expressible with finite reals), and a
NaN input component propagates to NaN in every output that reads it, with
no special-casing. -/
theorem euler_almansi_pointwise (a b c d : ℝ)
    (hx : 0 < exx_sqrt_arg a b) (hy : 0 < eyy_sqrt_arg c d) :
    euler_almansi_n (some a) (some b) (some c) (some d) =
      (some (Real.log (Real.sqrt (1 + 2 * a + a ^ 2 + b ^ 2))),
       some (Real.log (Real.sqrt (1 + 2 * d + c ^ 2 + d ^ 2))),
       some (c * (1 + a) + b * (1 + d))) ∧
    (∀ x y z w : NFloat,
      ((x = none ∨ y = none) → (euler_almansi_n x y z w).1 = none) ∧
      ((z = none ∨ w = none) → (euler_almansi_n x y z w).2.1 = none) ∧
      ((x = none ∨ y = none ∨ z = none ∨ w = none) →
        (euler_almansi_n x y z w).2.2 = none)) := by
  constructor
  · have hsx : ¬ exx_sqrt_arg a b < 0 := not_lt.mpr (le_of_lt hx)
    have hsy : ¬ eyy_sqrt_arg c d < 0 := not_lt.mpr (le_of_lt hy)
    have hlx : ¬ Real.sqrt (exx_sqrt_arg a b) ≤ 0 :=
      not_le.mpr (Real.sqrt_pos.mpr hx)
    have hly : ¬ Real.sqrt (eyy_sqrt_arg c d) ≤ 0 :=
      not_le.mpr (Real.sqrt_pos.mpr hy)
    simp only [exx_sqrt_arg, eyy_sqrt_arg] at hsx hsy hlx hly
    simp only [euler_almansi_n, exx_arg_some, eyy_arg_some, nsqrt, nadd, nmul,
      nlog, exx_sqrt_arg, eyy_sqrt_arg, if_neg hsx, if_neg hsy, if_neg hlx,
      if_neg hly]
  · intro x y z w
    refine ⟨?_, ?_, ?_⟩
    · rintro (rfl | rfl) <;>
        simp [euler_almansi_n, exx_arg, nadd_none_left, nadd_none_right,
          nmul_none_left, nmul_none_right, nsqrt, nlog]
    · rintro (rfl | rfl) <;>
        simp [euler_almansi_n, eyy_arg, nadd_none_left, nadd_none_right,
          nmul_none_left, nmul_none_right, nsqrt, nlog]
    · rintro (rfl | rfl | rfl | rfl) <;>
        simp [euler_almansi_n, nadd_none_left, nadd_none_right,
          nmul_none_left, nmul_none_right]

/-- Witness for C8 at the concrete input `(1, 1, 1, 1)`. -/
theorem euler_almansi_pointwise_witness :
    0 < exx_sqrt_arg 1 1 ∧ 0 < eyy_sqrt_arg 1 1 ∧
    (euler_almansi_n (some 1) (some 1) (some 1) (some 1) =
      (some (Real.log (Real.sqrt (1 + 2 * 1 + 1 ^ 2 + 1 ^ 2))),
       some (Real.log (Real.sqrt (1 + 2 * 1 + 1 ^ 2 + 1 ^ 2))),
       some (1 * (1 + 1) + 1 * (1 + 1))) ∧
    (∀ x y z w : NFloat,
      ((x = none ∨ y = none) → (euler_almansi_n x y z w).1 = none) ∧
      ((z = none ∨ w = none) → (euler_almansi_n x y z w).2.1 = none) ∧
      ((x = none ∨ y = none ∨ z = none ∨ w = none) →
        (euler_almansi_n x y z w).2.2 = none))) := by
  have hx : 0 < exx_sqrt_arg 1 1 := by norm_num [exx_sqrt_arg]
  have hy : 0 < eyy_sqrt_arg 1 1 := by norm_num [eyy_sqrt_arg]
  exact ⟨hx, hy, euler_almansi_pointwise 1 1 1 1 hx hy⟩

/-- `some` of the list of contained reals when every entry of a float64
array is a finite real, `none` when some entry is NaN. -/
def allSome {α : Type} : List (Option α) → Option (List α)
  | [] => some []
  | none :: _ => none
  | some a :: t => (allSome t).map (a :: ·)

lemma allSome_map_some {α : Type} (l : List α) : allSome (l.map some) = some l := by
  induction l with
  | nil => rfl
  | cons a t ih => simp [allSome, ih]

/-- Python `round(m / 2)` for a natural number `m`: true float division by
two followed by `round`, which rounds half to even (banker's rounding). -/
def pyRoundHalf (m : ℕ) : ℕ :=
  if m % 2 = 0 then m / 2
  else if (m / 2) % 2 = 0 then m / 2 else m / 2 + 1

/-- The window index the source evaluates the fitted derivatives at:
`int(round((window_size**2) / 2))` (source line 112). -/
def center_index (window_size : ℕ) : ℕ := pyRoundHalf (window_size ^ 2)

/-- `L_Q4_n` (source lines 90-93): the bilinear design matrix whose rows are
`(1, x_i, y_i, x_i * y_i)` (`np.vstack((ones, x, y, x*y)).T`). -/
def L_Q4_n {n : ℕ} (x y : Fin n → ℝ) : Matrix (Fin n) (Fin 4) ℝ :=
  Matrix.of fun i => ![1, x i, y i, x i * y i]

/-- `np.linalg.lstsq xbasis ydata` modelled by the normal equations
`p = (AᵀA)⁻¹ Aᵀ y`, which is the unique least-squares minimizer whenever
`A` has full column rank (`Matrix.inv` is the genuine inverse exactly when
`det (AᵀA)` is a unit).  Rank-deficient systems, which the spec declares
unguarded ("underdetermined/garbage coefficients"), are outside the
modelled scope. -/
noncomputable def np_lstsq {n : ℕ} (A : Matrix (Fin n) (Fin 4) ℝ)
    (y : Fin n → ℝ) : Fin 4 → ℝ :=
  ((Aᵀ * A)⁻¹).mulVec (Aᵀ.mulVec y)

/-- The design matrix of a window: `L_Q4_n` applied to the first two
coordinate components of the window's points (`xdata = point_data[:,:2].T`,
source lines 102-103). -/
noncomputable def window_basis (pd : List (ℝ × ℝ × ℝ)) :
    Matrix (Fin pd.length) (Fin 4) ℝ :=
  L_Q4_n (fun i => (pd.get i).1) (fun i => (pd.get i).2.1)

/-- The fitted bilinear coefficients `paramsQ4` of a window
(source line 110). -/
noncomputable def window_fit (pd : List (ℝ × ℝ × ℝ)) (data : List ℝ) :
    Fin 4 → ℝ :=
  np_lstsq (window_basis pd) (fun i => data.getD i 0)

/-- The window point the derivatives are evaluated at:
`px = xdata[:, int(round((window_size**2)/2))]` (source line 112). -/
def center_point (window_size : ℕ) (pd : List (ℝ × ℝ × ℝ)) : ℝ × ℝ × ℝ :=
  pd.getD (center_index window_size) (0, 0, 0)

/-- `evaluate_point_dev_n` (source lines 95-116).  Fewer samples than
`window_size**2` gives `(nan, nan)`; otherwise the bilinear least-squares
fit is evaluated at the window point with index
`int(round((window_size**2)/2))`:
`partial dx = paramsQ4[1] + paramsQ4[3]*px[1]`,
`partial dy = paramsQ4[2] + paramsQ4[3]*px[0]`.
A shape mismatch between `xbasis` and `ydata` or an out-of-range center
index raises in numpy and is an `Except.error` here; NaN samples reaching
the solver propagate to NaN outputs (spec §7 propagation policy: per-point
numerical failures are NaN sentinels, never exceptions). -/
noncomputable def evaluate_point_dev_n (window_size : ℕ)
    (point_data : List (ℝ × ℝ × ℝ)) (data : List NFloat) :
    Except String (NFloat × NFloat) :=
  if data.length < window_size ^ 2 then .ok (none, none)
  else if point_data.length = data.length ∧
      center_index window_size < point_data.length then
    match allSome data with
    | none => .ok (none, none)
    | some ydata =>
      let p := window_fit point_data ydata
      let px := center_point window_size point_data
      .ok (some (p 1 + p 3 * px.2.1), some (p 2 + p 3 * px.1))
  else .error "LinAlgError or IndexError"

/-- C5: a window with fewer scalar samples than `window_size**2` makes the
estimator return NaN for both derivatives without raising. -/
theorem evaluate_point_dev_n_insufficient (window_size : ℕ)
    (point_data : List (ℝ × ℝ × ℝ)) (data : List NFloat)
    (h : data.length < window_size ^ 2) :
    evaluate_point_dev_n window_size point_data data = .ok (none, none) := by
  simp [evaluate_point_dev_n, if_pos h]

/-- Witness for C5: an empty window with `window_size = 5`. -/
theorem evaluate_point_dev_n_insufficient_witness :
    ([] : List NFloat).length < 5 ^ 2 ∧
    evaluate_point_dev_n 5 [] [] = .ok (none, none) :=
  ⟨by norm_num, evaluate_point_dev_n_insufficient 5 [] [] (by norm_num)⟩

lemma np_lstsq_normal_eq {n : ℕ} (A : Matrix (Fin n) (Fin 4) ℝ)
    (y : Fin n → ℝ) (h : IsUnit (Aᵀ * A).det) :
    (Aᵀ * A).mulVec (np_lstsq A y) = Aᵀ.mulVec y := by
  rw [np_lstsq, Matrix.mulVec_mulVec, Matrix.mul_nonsing_inv _ h,
    Matrix.one_mulVec]

lemma np_lstsq_residual_orth {n : ℕ} (A : Matrix (Fin n) (Fin 4) ℝ)
    (y : Fin n → ℝ) (h : IsUnit (Aᵀ * A).det) :
    Aᵀ.mulVec (A.mulVec (np_lstsq A y) - y) = 0 := by
  rw [Matrix.mulVec_sub, Matrix.mulVec_mulVec, np_lstsq_normal_eq A y h,
    sub_self]

/-- With a full-column-rank design matrix, `np_lstsq` returns the (unique)
minimizer of the residual sum of squares of the unregularized system. -/
lemma np_lstsq_minimizes {n : ℕ} (A : Matrix (Fin n) (Fin 4) ℝ)
    (y : Fin n → ℝ) (h : IsUnit (Aᵀ * A).det) (q : Fin 4 → ℝ) :
    ∑ i, (A.mulVec (np_lstsq A y) i - y i) ^ 2 ≤
      ∑ i, (A.mulVec q i - y i) ^ 2 := by
  set p := np_lstsq A y with hp
  have horth : Aᵀ.mulVec (A.mulVec p - y) = 0 := np_lstsq_residual_orth A y h
  have hcross : (A.mulVec p - y) ⬝ᵥ A.mulVec (q - p) = 0 := by
    rw [Matrix.dotProduct_mulVec, ← Matrix.mulVec_transpose, horth,
      Matrix.zero_dotProduct]
  have hqp : A.mulVec q - y = (A.mulVec p - y) + A.mulVec (q - p) := by
    rw [Matrix.mulVec_sub]; abel
  have key : (A.mulVec q - y) ⬝ᵥ (A.mulVec q - y) =
      (A.mulVec p - y) ⬝ᵥ (A.mulVec p - y) +
        A.mulVec (q - p) ⬝ᵥ A.mulVec (q - p) := by
    rw [hqp, Matrix.add_dotProduct, Matrix.dotProduct_add,
      Matrix.dotProduct_add, hcross, Matrix.dotProduct_comm (A.mulVec (q - p)),
      hcross]
    ring
  have hsq : ∀ f : Fin n → ℝ, ∑ i, f i ^ 2 = f ⬝ᵥ f := by
    intro f; simp [Matrix.dotProduct, pow_two]
  have h1 : ∑ i, (A.mulVec p i - y i) ^ 2 =
      (A.mulVec p - y) ⬝ᵥ (A.mulVec p - y) := by
    rw [← hsq]; simp [Pi.sub_apply]
  have h2 : ∑ i, (A.mulVec q i - y i) ^ 2 =
      (A.mulVec q - y) ⬝ᵥ (A.mulVec q - y) := by
    rw [← hsq]; simp [Pi.sub_apply]
  rw [h1, h2, key]
  have hnn : 0 ≤ A.mulVec (q - p) ⬝ᵥ A.mulVec (q - p) :=
    Finset.sum_nonneg fun i _ => mul_self_nonneg _
  linarith

/-- With a full-column-rank design matrix, an exactly-representable data
vector is fitted exactly. -/
lemma np_lstsq_exact {n : ℕ} (A : Matrix (Fin n) (Fin 4) ℝ)
    (p : Fin 4 → ℝ) (h : IsUnit (Aᵀ * A).det) :
    np_lstsq A (A.mulVec p) = p := by
  rw [np_lstsq, Matrix.mulVec_mulVec, Matrix.mulVec_mulVec,
    Matrix.mul_assoc]
  rw [show (Aᵀ * A)⁻¹ * (Aᵀ * A) = 1 from Matrix.nonsing_inv_mul _ h,
    Matrix.one_mulVec]

/-- C3 (amended): for a window with `N ≥ window_size²` samples whose
bilinear design matrix has full column rank, the estimator returns the
coefficients `(a,b,c,d)` minimizing the unregularized residual sum of
squares and evaluates `∂f/∂x = b + d*y_c`, `∂f/∂y = c + d*x_c` at the
window point with index `round(window_size²/2)` (the source's
`int(round((window_size**2)/2))`), which coincides with the claim's
`round(N/2)` only when `N = window_size²`. -/
theorem evaluate_point_dev_n_fullrank (window_size : ℕ)
    (point_data : List (ℝ × ℝ × ℝ)) (data : List ℝ)
    (hlen : point_data.length = data.length)
    (hge : window_size ^ 2 ≤ data.length)
    (hidx : center_index window_size < point_data.length)
    (hdet : IsUnit ((window_basis point_data)ᵀ * window_basis point_data).det) :
    (∀ q : Fin 4 → ℝ,
      ∑ i, ((window_basis point_data).mulVec (window_fit point_data data) i -
          data.getD i 0) ^ 2 ≤
        ∑ i, ((window_basis point_data).mulVec q i - data.getD i 0) ^ 2) ∧
    evaluate_point_dev_n window_size point_data (data.map some) =
      .ok (some (window_fit point_data data 1 +
            window_fit point_data data 3 *
              (center_point window_size point_data).2.1),
           some (window_fit point_data data 2 +
            window_fit point_data data 3 *
              (center_point window_size point_data).1)) := by
  constructor
  · intro q
    exact np_lstsq_minimizes (window_basis point_data)
      (fun i => data.getD i 0) hdet q
  · have h1 : ¬ ((data.map some).length < window_size ^ 2) := by
      simpa using not_lt.mpr hge
    have h2 : point_data.length = (data.map some).length ∧
        center_index window_size < point_data.length := by
      constructor
      · simpa using hlen
      · exact hidx
    simp only [evaluate_point_dev_n, if_neg h1, if_pos h2, allSome_map_some]

/-- The estimator's center point and derivatives as the claim (and spec
§4.2) state them: the fitted derivatives evaluated at the window point with
index `round(N/2)`, `N` the number of scalar samples — compared below
against the source's `round(window_size**2 / 2)`. -/
noncomputable def spec_center_dev (pd : List (ℝ × ℝ × ℝ)) (data : List ℝ) :
    ℝ × ℝ :=
  let p := window_fit pd data
  let px := pd.getD (pyRoundHalf data.length) (0, 0, 0)
  (p 1 + p 3 * px.2.1, p 2 + p 3 * px.1)

/-- A 6-point window (`window_size = 2`, so `N = 6 > window_size² = 4`). -/
abbrev cexPts : List (ℝ × ℝ × ℝ) :=
  [(0, 0, 0), (1, 0, 0), (2, 0, 0), (1, 1, 0), (0, 2, 0), (2, 2, 0)]

/-- Scalar samples over `cexPts` taken exactly from `f (x, y) = x * y`. -/
abbrev cexData : List ℝ := [0, 0, 0, 1, 0, 4]

lemma det_fin_four_aux {R : Type} [CommRing R] (A : Matrix (Fin 4) (Fin 4) R) :
    A.det =
      A 0 0 * (A 1 1 * (A 2 2 * A 3 3 - A 2 3 * A 3 2)
             - A 1 2 * (A 2 1 * A 3 3 - A 2 3 * A 3 1)
             + A 1 3 * (A 2 1 * A 3 2 - A 2 2 * A 3 1))
    - A 0 1 * (A 1 0 * (A 2 2 * A 3 3 - A 2 3 * A 3 2)
             - A 1 2 * (A 2 0 * A 3 3 - A 2 3 * A 3 0)
             + A 1 3 * (A 2 0 * A 3 2 - A 2 2 * A 3 0))
    + A 0 2 * (A 1 0 * (A 2 1 * A 3 3 - A 2 3 * A 3 1)
             - A 1 1 * (A 2 0 * A 3 3 - A 2 3 * A 3 0)
             + A 1 3 * (A 2 0 * A 3 1 - A 2 1 * A 3 0))
    - A 0 3 * (A 1 0 * (A 2 1 * A 3 2 - A 2 2 * A 3 1)
             - A 1 1 * (A 2 0 * A 3 2 - A 2 2 * A 3 0)
             + A 1 2 * (A 2 0 * A 3 1 - A 2 1 * A 3 0)) := by
  rw [Matrix.det_succ_row_zero, Fin.sum_univ_four]
  simp [Matrix.det_fin_three, Matrix.submatrix_apply, Fin.succAbove]
  simp +decide only [show (Fin.succ (2 : Fin 3) : Fin 4) = 3 by decide,
    if_true, if_false, show (Fin.castSucc (2 : Fin 3) : Fin 4) = 2 by decide,
    show ((3 : Fin 4) : ℕ) = 3 from rfl]
  ring

lemma cexPts_x :
    (fun i : Fin cexPts.length => (cexPts.get i).1) = ![0, 1, 2, 1, 0, 2] := by
  funext i; fin_cases i <;> rfl

lemma cexPts_y :
    (fun i : Fin cexPts.length => (cexPts.get i).2.1) = ![0, 0, 0, 1, 2, 2] := by
  funext i; fin_cases i <;> rfl

lemma cex_basis :
    window_basis cexPts = L_Q4_n ![0, 1, 2, 1, 0, 2] ![0, 0, 0, 1, 2, 2] := by
  rw [window_basis, cexPts_x, cexPts_y]

lemma cex_gram :
    (window_basis cexPts)ᵀ * window_basis cexPts =
      !![6, 6, 5, 5; 6, 10, 5, 9; 5, 5, 9, 9; 5, 9, 9, 17] := by
  rw [cex_basis]
  ext i j
  fin_cases i <;> fin_cases j <;>
    simp [Matrix.mul_apply, L_Q4_n, Fin.sum_univ_succ,
      Matrix.transpose_apply] <;>
    (try norm_num) <;> rfl

lemma cex_det : IsUnit ((window_basis cexPts)ᵀ * window_basis cexPts).det := by
  rw [cex_gram]
  have h : (!![6, 6, 5, 5; 6, 10, 5, 9; 5, 5, 9, 9; 5, 9, 9, 17] :
      Matrix (Fin 4) (Fin 4) ℝ).det = 464 := by
    rw [det_fin_four_aux]
    norm_num [Matrix.cons_val_zero, Matrix.cons_val_one, Matrix.cons_val_two,
      Matrix.cons_val_three, Matrix.head_cons, Matrix.vecHead, Matrix.vecTail,
      Matrix.of_apply, Function.comp_apply]
  rw [h]
  exact isUnit_iff_ne_zero.mpr (by norm_num)

lemma cex_exact_fit :
    (window_basis cexPts).mulVec ![0, 0, 0, 1] =
      fun i : Fin cexPts.length => cexData.getD i 0 := by
  funext i
  fin_cases i <;>
    norm_num [window_basis, L_Q4_n, Matrix.mulVec, Matrix.dotProduct,
      Fin.sum_univ_four, show ((3 : Fin 6) : ℕ) = 3 from rfl,
      show ((4 : Fin 6) : ℕ) = 4 from rfl, show ((5 : Fin 6) : ℕ) = 5 from rfl]

lemma cex_fit : window_fit cexPts cexData = ![0, 0, 0, 1] := by
  rw [window_fit,
    show (fun i : Fin cexPts.length => cexData.getD i 0) =
      (window_basis cexPts).mulVec ![0, 0, 0, 1] from cex_exact_fit.symm]
  exact np_lstsq_exact _ _ cex_det

lemma cex_eval :
    evaluate_point_dev_n 2 cexPts (cexData.map some) =
      .ok (some 0, some 2) := by
  have h1 : ¬ ((cexData.map some).length < 2 ^ 2) := by norm_num
  have h2 : cexPts.length = (cexData.map some).length ∧
      center_index 2 < cexPts.length := by
    refine ⟨by norm_num, ?_⟩
    norm_num [center_index, pyRoundHalf]
  simp only [evaluate_point_dev_n, if_neg h1, if_pos h2, allSome_map_some,
    cex_fit]
  norm_num [center_point, center_index, pyRoundHalf, Matrix.cons_val_one,
    Matrix.cons_val_two, Matrix.cons_val_three, Matrix.head_cons,
    Matrix.vecHead, Matrix.vecTail]

lemma cex_spec : spec_center_dev cexPts cexData = (1, 1) := by
  simp only [spec_center_dev, cex_fit]
  norm_num [pyRoundHalf, Matrix.cons_val_one, Matrix.cons_val_two,
    Matrix.cons_val_three, Matrix.head_cons, Matrix.vecHead, Matrix.vecTail]

/-- C3 counterexample: with `window_size = 2` and `N = 6 ≥ window_size² = 4`
samples taken exactly from `f (x, y) = x * y`, the source evaluates the
fitted derivatives at index `round(window_size²/2) = 2` and returns
`(0, 2)`, while the claim's index `round(N/2) = 3` predicts `(1, 1)`. -/
theorem evaluate_point_dev_n_center_cex :
    2 ^ 2 ≤ (cexData.map some).length ∧
    evaluate_point_dev_n 2 cexPts (cexData.map some) = .ok (some 0, some 2) ∧
    spec_center_dev cexPts cexData = (1, 1) ∧
    evaluate_point_dev_n 2 cexPts (cexData.map some) ≠
      .ok (some (spec_center_dev cexPts cexData).1,
           some (spec_center_dev cexPts cexData).2) := by
  refine ⟨by norm_num, cex_eval, cex_spec, ?_⟩
  rw [cex_eval, cex_spec]
  simp only [ne_eq, Except.ok.injEq, Prod.mk.injEq, Option.some.injEq]
  intro h
  exact absurd h.1 (by norm_num)

/-- Witness for the amended C3 at the concrete full-rank 6-point window. -/
theorem evaluate_point_dev_n_fullrank_witness :
    (cexPts.length = cexData.length ∧ 2 ^ 2 ≤ cexData.length ∧
      center_index 2 < cexPts.length ∧
      IsUnit ((window_basis cexPts)ᵀ * window_basis cexPts).det) ∧
    ((∀ q : Fin 4 → ℝ,
      ∑ i, ((window_basis cexPts).mulVec (window_fit cexPts cexData) i -
          cexData.getD i 0) ^ 2 ≤
        ∑ i, ((window_basis cexPts).mulVec q i - cexData.getD i 0) ^ 2) ∧
    evaluate_point_dev_n 2 cexPts (cexData.map some) =
      .ok (some (window_fit cexPts cexData 1 +
            window_fit cexPts cexData 3 * (center_point 2 cexPts).2.1),
           some (window_fit cexPts cexData 2 +
            window_fit cexPts cexData 3 * (center_point 2 cexPts).1))) := by
  have ha : cexPts.length = cexData.length := by norm_num
  have hb : 2 ^ 2 ≤ cexData.length := by norm_num
  have hc : center_index 2 < cexPts.length := by
    norm_num [center_index, pyRoundHalf]
  exact ⟨⟨ha, hb, hc, cex_det⟩,
    evaluate_point_dev_n_fullrank 2 cexPts cexData ha hb hc cex_det⟩

/-- Modelled from the spec: a metadata value of the container's string-keyed
metadata mapping (§3: provenance flags such as booleans, strings, numbers). -/
inductive MetaVal where
  | mBool : Bool → MetaVal
  | mStr : String → MetaVal
  | mNat : ℕ → MetaVal
  | mReal : ℝ → MetaVal

/-- Python dict / pyvista field assignment `d[k] = v` on an association
list: overwrite in place when the key is present, append otherwise. -/
def setKey {β : Type} (l : List (String × β)) (k : String) (v : β) :
    List (String × β) :=
  if (l.lookup k).isSome then
    l.map (fun kv => if kv.1 = k then (k, v) else kv)
  else l ++ [(k, v)]

/-- Modelled from the spec: a mesh snapshot through the narrow interface of
§6 — bounding box (xmin, xmax, ymin, ymax, zmin, zmax, indexed 0-5 like
pyvista's `bounds`), point coordinates, and named point-data arrays. -/
structure PyMesh where
  bounds : Fin 6 → ℝ
  points : List (ℝ × ℝ × ℝ)
  pointData : List (String × List NFloat)

/-- Modelled from the spec: the `SpatialData` time-series container (§3,
§6) — ordered snapshots, parallel index/time/load arrays, and a mutable
string-keyed metadata mapping; its constructor stores what it is given. -/
structure SpatialData where
  data_sets : List PyMesh
  index : List ℝ
  time : List ℝ
  load : List ℝ
  metadata : List (String × MetaVal)

/-- Python `int(...)` on a float: truncation toward zero. -/
noncomputable def pyTrunc (x : ℝ) : ℤ := if 0 ≤ x then ⌊x⌋ else ⌈x⌉

/-- `np.linspace start stop num` (endpoint included). -/
noncomputable def np_linspace (start stop : ℝ) (num : ℕ) : List ℝ :=
  if num = 0 then []
  else if num = 1 then [start]
  else (List.range num).map
    (fun i : ℕ => start + (stop - start) * (i : ℝ) / ((num : ℝ) - 1))

/-- The point set of `pv.StructuredGrid(np.meshgrid(xr, yr, zr))`: all
combinations of the axis samples at the fixed height `z`. -/
def grid_points (xr yr : List ℝ) (z : ℝ) : List (ℝ × ℝ × ℝ) :=
  xr.bind (fun xv => yr.map (fun yv => (xv, yv, z)))

/-- The `int((bounds[i+1]-bounds[i])/spacing)` linspace sample counts of
`interpolate_spatialdata_grid` (source lines 22-23). -/
noncomputable def grid_counts (m : PyMesh) (spacing : ℝ) : ℤ × ℤ :=
  (pyTrunc ((m.bounds 1 - m.bounds 0) / spacing),
   pyTrunc ((m.bounds 3 - m.bounds 2) / spacing))

/-- The sampling grid of `interpolate_spatialdata_grid` (source lines
20-26): built from one mesh's bounding box, at fixed `z = bounds[5]`. -/
noncomputable def makeGrid (m : PyMesh) (spacing : ℝ) : List (ℝ × ℝ × ℝ) :=
  grid_points
    (np_linspace (m.bounds 0) (m.bounds 1) (grid_counts m spacing).1.toNat)
    (np_linspace (m.bounds 2) (m.bounds 3) (grid_counts m spacing).2.toNat)
    (m.bounds 5)

/-- The identifier/mask fields the masking loop skips (source line 38,
with the source's duplicated `vtkGhostType` kept). -/
def excluded_fields : List String :=
  ["ObjectId", "vtkGhostType", "vtkValidPointMask", "vtkGhostType"]

/-- `result[field][result['vtkValidPointMask']==False] = np.nan` for one
field array (source line 39): entries whose mask value equals 0 become
NaN. -/
noncomputable def applyMask (mask vals : List NFloat) : List NFloat :=
  (vals.zip mask).map (fun vm => if vm.2 = some 0 then none else vm.1)

/-- The masking loop of `interpolate_spatialdata_grid` (source lines
37-39): every non-excluded field is masked with `vtkValidPointMask`;
reading a missing mask raises KeyError.  (The in-place loop never modifies
the mask itself — it is excluded — so reading it once up front is
equivalent.) -/
noncomputable def mask_field (mask : List NFloat) (k : String)
    (v : List NFloat) : List NFloat :=
  if k ∈ excluded_fields then v else applyMask mask v

/-- The whole masking loop over the fields of one sampled mesh. -/
noncomputable def mask_invalid (fields : List (String × List NFloat)) :
    Except String (List (String × List NFloat)) :=
  match fields.lookup "vtkValidPointMask" with
  | some mask =>
    .ok (fields.map (fun fv => (fv.1, mask_field mask fv.1 fv.2)))
  | none =>
    if ∀ fv ∈ fields, fv.1 ∈ excluded_fields then .ok fields
    else .error "KeyError: vtkValidPointMask"

/-- Masking applied to a sampled mesh. -/
noncomputable def mask_mesh (m : PyMesh) : Except String PyMesh :=
  (mask_invalid m.pointData).map (fun f => { m with pointData := f })

/-- Error-propagating map, the loop body semantics of both the sampling
loop and the per-point differentiation loop. -/
def mapExcept {α β : Type} (f : α → Except String β) :
    List α → Except String (List β)
  | [] => .ok []
  | a :: t =>
    match f a with
    | .error e => .error e
    | .ok b => (mapExcept f t).map (b :: ·)

/-- The metadata stamp of `interpolate_spatialdata_grid` (source lines
29-32), applied to the input's metadata dict itself (the source aliases,
it does not clone). -/
def stamp_interp (md : List (String × MetaVal)) (spacing : ℝ) :
    List (String × MetaVal) :=
  setKey (setKey (setKey md "interpolated" (.mBool true))
    "interpolation_type" (.mStr "grid")) "grid_spacing" (.mReal spacing)

/-- `interpolate_spatialdata_grid` (source lines 9-43), with the external
pyvista resampling `grid.sample(mesh)` abstracted as the parameter
`sample`.  The result is the pair (returned value or raised exception,
state of the input container after the call): Python passes the container
by reference and line 29 aliases its metadata dict, so the three stamped
keys appear in the input container too.  Empty containers raise IndexError
at line 20; a zero spacing raises ZeroDivisionError at line 22; a negative
sample count raises ValueError inside `np.linspace` — all before the
metadata stamp. -/
noncomputable def interpolate_spatialdata_grid
    (sample : List (ℝ × ℝ × ℝ) → PyMesh → PyMesh)
    (sd : SpatialData) (spacing : ℝ) :
    Except String SpatialData × SpatialData :=
  match sd.data_sets with
  | [] => (.error "IndexError", sd)
  | m0 :: _ =>
    if spacing = 0 then (.error "ZeroDivisionError", sd)
    else if (grid_counts m0 spacing).1 < 0 ∨ (grid_counts m0 spacing).2 < 0 then
      (.error "ValueError: number of samples must be nonnegative", sd)
    else
      let grid := makeGrid m0 spacing
      let md := stamp_interp sd.metadata spacing
      let sd1 : SpatialData := { sd with metadata := md }
      match mapExcept (fun mesh => mask_mesh (sample grid mesh)) sd.data_sets with
      | .error e => (.error e, sd1)
      | .ok ds => (.ok ⟨ds, sd.index, sd.time, sd.load, md⟩, sd1)

/-- C1 (amended): the interpolator returns a new container that reuses the
input's index/time/load arrays and snapshots list, with metadata equal to
the input's metadata mapping with `interpolated=true`,
`interpolation_type="grid"`, `grid_spacing=<spacing>` set — but the mapping
is the input's own dict (aliased, not cloned): after the call the input
container's metadata carries the three stamped keys as well.  Snapshots and
index/time/load of the input are unchanged. -/
theorem interpolate_spatialdata_grid_no_clone
    (sample : List (ℝ × ℝ × ℝ) → PyMesh → PyMesh) (sd : SpatialData)
    (spacing : ℝ) (m0 : PyMesh) (rest : List PyMesh)
    (hds : sd.data_sets = m0 :: rest) (h0 : spacing ≠ 0)
    (hn : ¬ ((grid_counts m0 spacing).1 < 0 ∨ (grid_counts m0 spacing).2 < 0)) :
    (interpolate_spatialdata_grid sample sd spacing).2 =
      { sd with metadata := stamp_interp sd.metadata spacing } ∧
    (∀ out, (interpolate_spatialdata_grid sample sd spacing).1 = .ok out →
      out.index = sd.index ∧ out.time = sd.time ∧ out.load = sd.load ∧
      out.metadata = stamp_interp sd.metadata spacing ∧
      out.metadata = (interpolate_spatialdata_grid sample sd spacing).2.metadata ∧
      mapExcept (fun mesh => mask_mesh (sample (makeGrid m0 spacing) mesh))
        sd.data_sets = .ok out.data_sets) := by
  obtain ⟨ds, idx, tm, ld, md⟩ := sd
  simp only at hds
  subst hds
  simp only [interpolate_spatialdata_grid, if_neg h0, if_neg hn]
  cases hm : mapExcept
      (fun mesh => mask_mesh (sample (makeGrid m0 spacing) mesh))
      (m0 :: rest) with
  | error e =>
    refine ⟨rfl, ?_⟩
    intro out hout
    exact absurd hout (by simp)
  | ok ds' =>
    refine ⟨rfl, ?_⟩
    intro out hout
    simp only [Except.ok.injEq] at hout
    subst hout
    exact ⟨rfl, rfl, rfl, rfl, rfl, rfl⟩

/-- The concrete mesh and container for the interpolation runs: one
degenerate snapshot with no fields at all. -/
abbrev cMesh1 : PyMesh :=
  { bounds := ![0, 0, 0, 0, 0, 0], points := [], pointData := [] }

abbrev cSD1 : SpatialData :=
  { data_sets := [cMesh1], index := [], time := [], load := [], metadata := [] }

/-- The identity sampler: resampling is an abstract external capability,
and the identity is one admissible instance. -/
def idSample : List (ℝ × ℝ × ℝ) → PyMesh → PyMesh := fun _ m => m

lemma cSD1_counts : grid_counts cMesh1 1 = (0, 0) := by
  have h : ((0 : ℝ) - 0) / 1 = 0 := by norm_num
  simp [grid_counts, pyTrunc, h]

lemma cSD1_run :
    interpolate_spatialdata_grid idSample cSD1 1 =
      (.ok ⟨[cMesh1], [], [], [], stamp_interp [] 1⟩,
       { cSD1 with metadata := stamp_interp [] 1 }) := by
  have h0 : (1 : ℝ) ≠ 0 := one_ne_zero
  have hn : ¬ ((grid_counts cMesh1 1).1 < 0 ∨ (grid_counts cMesh1 1).2 < 0) := by
    rw [cSD1_counts]; norm_num
  simp only [interpolate_spatialdata_grid, if_neg h0, if_neg hn]
  have hmask : mask_mesh (idSample (makeGrid cMesh1 1) cMesh1) = .ok cMesh1 := by
    rfl
  simp [mapExcept, hmask, Except.map]

/-- C1 counterexample: the source aliases the input's metadata dict
(line 29 `metadata = spatialdata._metadata`) instead of cloning it: on a
container whose metadata is initially empty, after a successful call the
input container's metadata has gained the three stamped keys, so the input
container is mutated, contradicting the claim. -/
theorem interpolate_spatialdata_grid_mutates_cex :
    ((interpolate_spatialdata_grid idSample cSD1 1).1.toOption).isSome = true ∧
    (interpolate_spatialdata_grid idSample cSD1 1).2.metadata ≠
      cSD1.metadata := by
  rw [cSD1_run]
  constructor
  · rfl
  · simp [stamp_interp, setKey]

/-- Witness for the amended C1 at the concrete container `cSD1`. -/
theorem interpolate_spatialdata_grid_no_clone_witness :
    (cSD1.data_sets = cMesh1 :: [] ∧ (1 : ℝ) ≠ 0 ∧
      ¬ ((grid_counts cMesh1 1).1 < 0 ∨ (grid_counts cMesh1 1).2 < 0)) ∧
    ((interpolate_spatialdata_grid idSample cSD1 1).2 =
      { cSD1 with metadata := stamp_interp cSD1.metadata 1 } ∧
    (∀ out, (interpolate_spatialdata_grid idSample cSD1 1).1 = .ok out →
      out.index = cSD1.index ∧ out.time = cSD1.time ∧ out.load = cSD1.load ∧
      out.metadata = stamp_interp cSD1.metadata 1 ∧
      out.metadata = (interpolate_spatialdata_grid idSample cSD1 1).2.metadata ∧
      mapExcept (fun mesh => mask_mesh (idSample (makeGrid cMesh1 1) mesh))
        cSD1.data_sets = .ok out.data_sets)) := by
  have h1 : cSD1.data_sets = cMesh1 :: [] := rfl
  have h2 : (1 : ℝ) ≠ 0 := one_ne_zero
  have h3 : ¬ ((grid_counts cMesh1 1).1 < 0 ∨ (grid_counts cMesh1 1).2 < 0) := by
    rw [cSD1_counts]; norm_num
  exact ⟨⟨h1, h2, h3⟩,
    interpolate_spatialdata_grid_no_clone idSample cSD1 1 cMesh1 [] h1 h2 h3⟩

lemma np_linspace_length (start stop : ℝ) (num : ℕ) :
    (np_linspace start stop num).length = num := by
  by_cases h0 : num = 0
  · simp [np_linspace, h0]
  by_cases h1 : num = 1
  · simp [np_linspace, h0, h1]
  · simp only [np_linspace, if_neg h0, if_neg h1]
    rw [List.length_map, List.length_range]

lemma np_linspace_mem (start stop : ℝ) (num : ℕ) (hle : start ≤ stop) :
    ∀ xv ∈ np_linspace start stop num, start ≤ xv ∧ xv ≤ stop := by
  intro xv hxv
  by_cases h0 : num = 0
  · simp [np_linspace, h0] at hxv
  by_cases h1 : num = 1
  · simp [np_linspace, h0, h1] at hxv
    subst hxv
    exact ⟨le_refl _, hle⟩
  · simp only [np_linspace, if_neg h0, if_neg h1] at hxv
    rw [List.mem_map] at hxv
    obtain ⟨i, hi, rfl⟩ := hxv
    rw [List.mem_range] at hi
    have hnum : (2 : ℕ) ≤ num := by omega
    have hden : (0 : ℝ) < (num : ℝ) - 1 := by
      have h2 : (2 : ℝ) ≤ (num : ℝ) := by exact_mod_cast hnum
      linarith
    have hdiff : 0 ≤ stop - start := by linarith
    have hi' : (i : ℝ) ≤ (num : ℝ) - 1 := by
      have hn : (i + 1 : ℕ) ≤ num := hi
      have hc := (Nat.cast_le (α := ℝ)).mpr hn
      push_cast at hc
      linarith
    constructor
    · have hq : 0 ≤ (stop - start) * (i : ℝ) / ((num : ℝ) - 1) := by
        positivity
      linarith
    · have hq : (stop - start) * (i : ℝ) / ((num : ℝ) - 1) ≤ stop - start := by
        rw [div_le_iff hden]
        exact mul_le_mul_of_nonneg_left hi' hdiff
      linarith

lemma grid_points_mem (xr yr : List ℝ) (z : ℝ) (p : ℝ × ℝ × ℝ) :
    p ∈ grid_points xr yr z ↔ p.1 ∈ xr ∧ p.2.1 ∈ yr ∧ p.2.2 = z := by
  obtain ⟨px, py, pz⟩ := p
  constructor
  · intro h
    simp only [grid_points, List.mem_bind, List.mem_map] at h
    obtain ⟨xv, hx, yv, hy, hp⟩ := h
    simp only [Prod.mk.injEq] at hp
    obtain ⟨rfl, rfl, rfl⟩ := hp
    exact ⟨hx, hy, rfl⟩
  · rintro ⟨h1, h2, h3⟩
    simp only at h1 h2 h3
    subst h3
    simp only [grid_points, List.mem_bind, List.mem_map]
    exact ⟨px, h1, py, h2, rfl⟩

lemma grid_points_length (xr yr : List ℝ) (z : ℝ) :
    (grid_points xr yr z).length = xr.length * yr.length := by
  induction xr with
  | nil => simp [grid_points]
  | cons a t ih =>
    simp only [grid_points, List.cons_bind, List.length_append,
      List.length_map, List.length_cons] at ih ⊢
    rw [ih]
    ring

lemma interpolate_ok_data_sets (sample : List (ℝ × ℝ × ℝ) → PyMesh → PyMesh)
    (sd : SpatialData) (spacing : ℝ) (m0 : PyMesh) (rest : List PyMesh)
    (out : SpatialData) (hds : sd.data_sets = m0 :: rest)
    (hok : (interpolate_spatialdata_grid sample sd spacing).1 = .ok out) :
    mapExcept (fun mesh => mask_mesh (sample (makeGrid m0 spacing) mesh))
      sd.data_sets = .ok out.data_sets ∧
    out.metadata = stamp_interp sd.metadata spacing := by
  obtain ⟨ds, idx, tm, ld, md⟩ := sd
  simp only at hds
  subst hds
  by_cases h0 : spacing = 0
  · simp [interpolate_spatialdata_grid, h0] at hok
  by_cases hn : (grid_counts m0 spacing).1 < 0 ∨ (grid_counts m0 spacing).2 < 0
  · simp only [interpolate_spatialdata_grid, if_neg h0, if_pos hn] at hok
    cases hok
  · simp only [interpolate_spatialdata_grid, if_neg h0, if_neg hn] at hok
    cases hm : mapExcept
        (fun mesh => mask_mesh (sample (makeGrid m0 spacing) mesh))
        (m0 :: rest) with
    | error e =>
      rw [hm] at hok
      cases hok
    | ok ds' =>
      rw [hm] at hok
      simp only [Except.ok.injEq] at hok
      subst hok
      exact ⟨rfl, rfl⟩

/-- C4: the interpolator's sampling grid is built from the first snapshot's
bounding box only, as the set of all combinations of
`np.linspace(x_min, x_max, nx)` and `np.linspace(y_min, y_max, ny)` at
fixed `z = z_max`, with `nx = floor((x_max-x_min)/spacing)` and
`ny = floor((y_max-y_min)/spacing)` points along the axes; every grid point
lies in `[x_min,x_max] × [y_min,y_max] × {z_max}`, and on success every
snapshot of the container is resampled onto this one grid. -/
theorem interpolate_grid_structure
    (sample : List (ℝ × ℝ × ℝ) → PyMesh → PyMesh) (sd : SpatialData)
    (spacing : ℝ) (m0 : PyMesh) (rest : List PyMesh)
    (hds : sd.data_sets = m0 :: rest) (hpos : 0 < spacing)
    (hx : m0.bounds 0 ≤ m0.bounds 1) (hy : m0.bounds 2 ≤ m0.bounds 3) :
    (grid_counts m0 spacing).1 = ⌊(m0.bounds 1 - m0.bounds 0) / spacing⌋ ∧
    (grid_counts m0 spacing).2 = ⌊(m0.bounds 3 - m0.bounds 2) / spacing⌋ ∧
    makeGrid m0 spacing =
      grid_points
        (np_linspace (m0.bounds 0) (m0.bounds 1)
          (grid_counts m0 spacing).1.toNat)
        (np_linspace (m0.bounds 2) (m0.bounds 3)
          (grid_counts m0 spacing).2.toNat)
        (m0.bounds 5) ∧
    (np_linspace (m0.bounds 0) (m0.bounds 1)
      (grid_counts m0 spacing).1.toNat).length =
        (grid_counts m0 spacing).1.toNat ∧
    (np_linspace (m0.bounds 2) (m0.bounds 3)
      (grid_counts m0 spacing).2.toNat).length =
        (grid_counts m0 spacing).2.toNat ∧
    (makeGrid m0 spacing).length =
      (grid_counts m0 spacing).1.toNat * (grid_counts m0 spacing).2.toNat ∧
    (∀ p ∈ makeGrid m0 spacing,
      m0.bounds 0 ≤ p.1 ∧ p.1 ≤ m0.bounds 1 ∧
      m0.bounds 2 ≤ p.2.1 ∧ p.2.1 ≤ m0.bounds 3 ∧ p.2.2 = m0.bounds 5) ∧
    (∀ out, (interpolate_spatialdata_grid sample sd spacing).1 = .ok out →
      mapExcept (fun mesh => mask_mesh (sample (makeGrid m0 spacing) mesh))
        sd.data_sets = .ok out.data_sets) := by
  have hxq : 0 ≤ (m0.bounds 1 - m0.bounds 0) / spacing :=
    div_nonneg (sub_nonneg.mpr hx) hpos.le
  have hyq : 0 ≤ (m0.bounds 3 - m0.bounds 2) / spacing :=
    div_nonneg (sub_nonneg.mpr hy) hpos.le
  refine ⟨by simp [grid_counts, pyTrunc, if_pos hxq],
          by simp [grid_counts, pyTrunc, if_pos hyq], rfl,
          np_linspace_length .., np_linspace_length .., ?_, ?_, ?_⟩
  · rw [makeGrid, grid_points_length, np_linspace_length, np_linspace_length]
  · intro p hp
    rw [makeGrid, grid_points_mem] at hp
    obtain ⟨h1, h2, h3⟩ := hp
    obtain ⟨ha, hb⟩ := np_linspace_mem _ _ _ hx _ h1
    obtain ⟨hc, hd⟩ := np_linspace_mem _ _ _ hy _ h2
    exact ⟨ha, hb, hc, hd, h3⟩
  · intro out hok
    exact (interpolate_ok_data_sets sample sd spacing m0 rest out hds hok).1

/-- Witness for C4 at the concrete container `cSD1` with spacing 1. -/
theorem interpolate_grid_structure_witness :
    (cSD1.data_sets = cMesh1 :: [] ∧ (0 : ℝ) < 1 ∧
      cMesh1.bounds 0 ≤ cMesh1.bounds 1 ∧ cMesh1.bounds 2 ≤ cMesh1.bounds 3) ∧
    ((grid_counts cMesh1 1).1 = ⌊(cMesh1.bounds 1 - cMesh1.bounds 0) / 1⌋ ∧
    (grid_counts cMesh1 1).2 = ⌊(cMesh1.bounds 3 - cMesh1.bounds 2) / 1⌋ ∧
    makeGrid cMesh1 1 =
      grid_points
        (np_linspace (cMesh1.bounds 0) (cMesh1.bounds 1)
          (grid_counts cMesh1 1).1.toNat)
        (np_linspace (cMesh1.bounds 2) (cMesh1.bounds 3)
          (grid_counts cMesh1 1).2.toNat)
        (cMesh1.bounds 5) ∧
    (np_linspace (cMesh1.bounds 0) (cMesh1.bounds 1)
      (grid_counts cMesh1 1).1.toNat).length = (grid_counts cMesh1 1).1.toNat ∧
    (np_linspace (cMesh1.bounds 2) (cMesh1.bounds 3)
      (grid_counts cMesh1 1).2.toNat).length = (grid_counts cMesh1 1).2.toNat ∧
    (makeGrid cMesh1 1).length =
      (grid_counts cMesh1 1).1.toNat * (grid_counts cMesh1 1).2.toNat ∧
    (∀ p ∈ makeGrid cMesh1 1,
      cMesh1.bounds 0 ≤ p.1 ∧ p.1 ≤ cMesh1.bounds 1 ∧
      cMesh1.bounds 2 ≤ p.2.1 ∧ p.2.1 ≤ cMesh1.bounds 3 ∧
      p.2.2 = cMesh1.bounds 5) ∧
    (∀ out, (interpolate_spatialdata_grid idSample cSD1 1).1 = .ok out →
      mapExcept (fun mesh => mask_mesh (idSample (makeGrid cMesh1 1) mesh))
        cSD1.data_sets = .ok out.data_sets)) := by
  have h1 : cSD1.data_sets = cMesh1 :: [] := rfl
  have h2 : (0 : ℝ) < 1 := one_pos
  have h3 : cMesh1.bounds 0 ≤ cMesh1.bounds 1 := by norm_num [cMesh1]
  have h4 : cMesh1.bounds 2 ≤ cMesh1.bounds 3 := by norm_num [cMesh1]
  exact ⟨⟨h1, h2, h3, h4⟩,
    interpolate_grid_structure idSample cSD1 1 cMesh1 [] h1 h2 h3 h4⟩

lemma mapExcept_ok_forall₂ {α β : Type} (f : α → Except String β) :
    ∀ (l : List α) (l' : List β), mapExcept f l = .ok l' →
      List.Forall₂ (fun a b => f a = .ok b) l l' := by
  intro l
  induction l with
  | nil =>
    intro l' h
    simp only [mapExcept, Except.ok.injEq] at h
    subst h
    exact List.Forall₂.nil
  | cons a t ih =>
    intro l' h
    simp only [mapExcept] at h
    cases hfa : f a with
    | error e => rw [hfa] at h; cases h
    | ok b =>
      rw [hfa] at h
      cases hmt : mapExcept f t with
      | error e => rw [hmt] at h; cases h
      | ok t' =>
        rw [hmt] at h
        simp only [Except.map, Except.ok.injEq] at h
        subst h
        exact List.Forall₂.cons hfa (ih t' hmt)

lemma lookup_map_keyed {β γ : Type} (g : String → β → γ) (k : String) :
    ∀ l : List (String × β),
      (l.map (fun kv => (kv.1, g kv.1 kv.2))).lookup k =
        (l.lookup k).map (g k) := by
  intro l
  induction l with
  | nil => rfl
  | cons kv t ih =>
    by_cases h : k = kv.1
    · subst h
      simp [List.lookup]
    · simp [List.lookup, h, ih, beq_eq_false_iff_ne.mpr h]

lemma applyMask_get?_of_zero (mask vals : List NFloat) (j : ℕ)
    (hj : j < vals.length) (hm : mask.get? j = some (some 0)) :
    (applyMask mask vals).get? j = some none := by
  rw [applyMask, List.get?_map]
  have hz : (vals.zip mask).get? j = some (vals.get ⟨j, hj⟩, some 0) := by
    rw [List.get?_zip_eq_some]
    exact ⟨List.get?_eq_get hj, hm⟩
  rw [hz]
  simp

lemma mask_mesh_spec (s d : PyMesh) (h : mask_mesh s = .ok d) :
    d.bounds = s.bounds ∧ d.points = s.points ∧
    ∀ f vals, s.pointData.lookup f = some vals →
      (f ∈ excluded_fields → d.pointData.lookup f = some vals) ∧
      (f ∉ excluded_fields →
        ∀ mask, s.pointData.lookup "vtkValidPointMask" = some mask →
          d.pointData.lookup f = some (applyMask mask vals)) := by
  rw [mask_mesh] at h
  cases hmi : mask_invalid s.pointData with
  | error e => rw [hmi] at h; cases h
  | ok fields' =>
    rw [hmi] at h
    simp only [Except.map, Except.ok.injEq] at h
    subst h
    refine ⟨rfl, rfl, ?_⟩
    intro f vals hlook
    rw [mask_invalid] at hmi
    cases hmk : s.pointData.lookup "vtkValidPointMask" with
    | some mask =>
      rw [hmk] at hmi
      simp only [Except.ok.injEq] at hmi
      subst hmi
      constructor
      · intro hf
        rw [lookup_map_keyed (mask_field mask) f s.pointData, hlook]
        simp [mask_field, if_pos hf]
      · intro hf mask' hmk'
        have he : mask = mask' := Option.some.inj hmk'
        subst he
        rw [lookup_map_keyed (mask_field mask) f s.pointData, hlook]
        simp [mask_field, if_neg hf]
    | none =>
      rw [hmk] at hmi
      by_cases hall : ∀ fv ∈ s.pointData, fv.1 ∈ excluded_fields
      · rw [if_pos hall] at hmi
        simp only [Except.ok.injEq] at hmi
        subst hmi
        refine ⟨fun _ => hlook, ?_⟩
        intro _ mask hmk'
        exact Option.noConfusion hmk'
      · rw [if_neg hall] at hmi
        cases hmi

/-- C7: after interpolation, every output snapshot is its sampled
counterpart with, for every non-identifier/mask field, the samples at
invalid grid points (mask value 0) overwritten with NaN, while the
identifier/mask fields (`ObjectId`, `vtkGhostType`, `vtkValidPointMask`)
are left as sampled. -/
theorem interpolate_masks_invalid
    (sample : List (ℝ × ℝ × ℝ) → PyMesh → PyMesh) (sd : SpatialData)
    (spacing : ℝ) (m0 : PyMesh) (rest : List PyMesh) (out : SpatialData)
    (hds : sd.data_sets = m0 :: rest)
    (hok : (interpolate_spatialdata_grid sample sd spacing).1 = .ok out) :
    List.Forall₂ (fun src dst =>
      dst.bounds = (sample (makeGrid m0 spacing) src).bounds ∧
      dst.points = (sample (makeGrid m0 spacing) src).points ∧
      ∀ f vals,
        (sample (makeGrid m0 spacing) src).pointData.lookup f = some vals →
        (f ∈ excluded_fields → dst.pointData.lookup f = some vals) ∧
        (f ∉ excluded_fields →
          ∀ mask, (sample (makeGrid m0 spacing) src).pointData.lookup
              "vtkValidPointMask" = some mask →
            dst.pointData.lookup f = some (applyMask mask vals) ∧
            ∀ j, j < vals.length → mask.get? j = some (some 0) →
              (applyMask mask vals).get? j = some none))
      sd.data_sets out.data_sets := by
  have hmap := (interpolate_ok_data_sets sample sd spacing m0 rest out
    hds hok).1
  have hf2 := mapExcept_ok_forall₂ _ _ _ hmap
  refine hf2.imp ?_
  intro src dst hmm
  obtain ⟨hb, hp, hfield⟩ := mask_mesh_spec _ _ hmm
  refine ⟨hb, hp, ?_⟩
  intro f vals hlook
  refine ⟨(hfield f vals hlook).1, ?_⟩
  intro hf mask hmask
  exact ⟨(hfield f vals hlook).2 hf mask hmask,
    fun j hj hmj => applyMask_get?_of_zero mask vals j hj hmj⟩

/-- A snapshot with a validity mask (valid, invalid) and one scalar field. -/
abbrev cMesh7 : PyMesh :=
  { bounds := ![0, 0, 0, 0, 0, 0], points := [],
    pointData := [("vtkValidPointMask", [some 1, some 0]),
                  ("T", [some 3, some 4])] }

abbrev cSD7 : SpatialData :=
  { data_sets := [cMesh7], index := [], time := [], load := [], metadata := [] }

/-- `cMesh7` after masking: the invalid point's `T` sample is NaN. -/
abbrev cMesh7m : PyMesh :=
  { bounds := ![0, 0, 0, 0, 0, 0], points := [],
    pointData := [("vtkValidPointMask", [some 1, some 0]),
                  ("T", [some 3, none])] }

lemma cMesh7_applyMask :
    applyMask [some 1, some 0] [some 3, some 4] = [some 3, none] := by
  norm_num [applyMask]

lemma cMesh7_mask : mask_mesh cMesh7 = .ok cMesh7m := by
  have hlk : (cMesh7.pointData).lookup "vtkValidPointMask" =
      some [some 1, some 0] := rfl
  rw [mask_mesh, mask_invalid, hlk]
  simp only [Except.map, List.map]
  simp +decide [mask_field, excluded_fields, cMesh7_applyMask]

lemma cSD7_run :
    interpolate_spatialdata_grid idSample cSD7 1 =
      (.ok ⟨[cMesh7m], [], [], [], stamp_interp [] 1⟩,
       { cSD7 with metadata := stamp_interp [] 1 }) := by
  have h0 : (1 : ℝ) ≠ 0 := one_ne_zero
  have hc : grid_counts cMesh7 1 = (0, 0) := by
    have h : ((0 : ℝ) - 0) / 1 = 0 := by norm_num
    simp [grid_counts, pyTrunc, h]
  have hn : ¬ ((grid_counts cMesh7 1).1 < 0 ∨ (grid_counts cMesh7 1).2 < 0) := by
    rw [hc]; norm_num
  simp only [interpolate_spatialdata_grid, if_neg h0, if_neg hn]
  have hmask : mask_mesh (idSample (makeGrid cMesh7 1) cMesh7) = .ok cMesh7m :=
    cMesh7_mask
  simp [mapExcept, hmask, Except.map]

/-- Witness for C7 at the concrete container `cSD7`: the sampled field `T`
is NaN at the invalid grid point, the mask itself is untouched. -/
theorem interpolate_masks_invalid_witness :
    (cSD7.data_sets = cMesh7 :: [] ∧
     (interpolate_spatialdata_grid idSample cSD7 1).1 =
       .ok ⟨[cMesh7m], [], [], [], stamp_interp [] 1⟩) ∧
    List.Forall₂ (fun src dst =>
      dst.bounds = (idSample (makeGrid cMesh7 1) src).bounds ∧
      dst.points = (idSample (makeGrid cMesh7 1) src).points ∧
      ∀ f vals,
        (idSample (makeGrid cMesh7 1) src).pointData.lookup f = some vals →
        (f ∈ excluded_fields → dst.pointData.lookup f = some vals) ∧
        (f ∉ excluded_fields →
          ∀ mask, (idSample (makeGrid cMesh7 1) src).pointData.lookup
              "vtkValidPointMask" = some mask →
            dst.pointData.lookup f = some (applyMask mask vals) ∧
            ∀ j, j < vals.length → mask.get? j = some (some 0) →
              (applyMask mask vals).get? j = some none))
      cSD7.data_sets
      (SpatialData.mk [cMesh7m] [] [] [] (stamp_interp [] 1)).data_sets := by
  have h1 : cSD7.data_sets = cMesh7 :: [] := rfl
  have h2 : (interpolate_spatialdata_grid idSample cSD7 1).1 =
      .ok ⟨[cMesh7m], [], [], [], stamp_interp [] 1⟩ := by
    rw [cSD7_run]
  exact ⟨⟨h1, h2⟩,
    interpolate_masks_invalid idSample cSD7 1 cMesh7 []
      ⟨[cMesh7m], [], [], [], stamp_interp [] 1⟩ h1 h2⟩

/-- `some`-or-raise: indexing / key access that raises in Python when the
value is absent. -/
def getOr {α : Type} (e : String) : Option α → Except String α
  | some a => .ok a
  | none => .error e

/-- `get_points_neighbours` (source lines 46-74), with the pyvista
`point_neighbors_levels` query abstracted as the parameter `pnl`
(mesh, point, levels ↦ one list of point indices per level).  For each
point the window is the point itself followed by the concatenated level
lists; `levels = int((window_size-1)/2)`. -/
def get_points_neighbours (pnl : PyMesh → ℕ → ℕ → List (List ℕ))
    (mesh : PyMesh) (window_size : ℕ) : List (List ℕ) :=
  (List.range mesh.points.length).map
    (fun point => point :: (pnl mesh point ((window_size - 1) / 2)).join)

/-- One iteration of the loop in `differentiate_mesh` (source lines
139-149): gather the window's coordinates and `disp_x`/`disp_y` samples
and fit both displacement components.  A missing displacement field raises
KeyError, an out-of-range index raises IndexError. -/
noncomputable def point_gradients (window_size : ℕ) (mesh : PyMesh)
    (points_list : List (List ℕ)) (point : ℕ) :
    Except String ((NFloat × NFloat) × (NFloat × NFloat)) := do
  let neighbours ← getOr "IndexError" (points_list.get? point)
  let point_data ← mapExcept
    (fun nb => getOr "IndexError" (mesh.points.get? nb)) neighbours
  let u_all ← getOr "KeyError: disp_x" (mesh.pointData.lookup "disp_x")
  let u ← mapExcept (fun nb => getOr "IndexError" (u_all.get? nb)) neighbours
  let v_all ← getOr "KeyError: disp_y" (mesh.pointData.lookup "disp_y")
  let v ← mapExcept (fun nb => getOr "IndexError" (v_all.get? nb)) neighbours
  let du ← evaluate_point_dev_n window_size point_data u
  let dv ← evaluate_point_dev_n window_size point_data v
  return (du, dv)

/-- The elementwise strain computation over whole gradient arrays
(source line 151). -/
noncomputable def euler_almansi_arrays (dudx dudy dvdx dvdy : List NFloat) :
    List NFloat × List NFloat × List NFloat :=
  (List.zipWith (fun p q => (euler_almansi_n p.1 p.2 q.1 q.2).1)
      (dudx.zip dudy) (dvdx.zip dvdy),
   List.zipWith (fun p q => (euler_almansi_n p.1 p.2 q.1 q.2).2.1)
      (dudx.zip dudy) (dvdx.zip dvdy),
   List.zipWith (fun p q => (euler_almansi_n p.1 p.2 q.1 q.2).2.2)
      (dudx.zip dudy) (dvdx.zip dvdy))

/-- `differentiate_mesh` (source lines 132-153): per-point window fits for
both displacement components, then the strain arrays.  No field is written
here; the caller writes the three arrays onto the mesh after a successful
return, so a failing mesh is never modified. -/
noncomputable def differentiate_mesh (window_size : ℕ) (mesh : PyMesh)
    (points_list : List (List ℕ)) :
    Except String (List NFloat × List NFloat × List NFloat) := do
  let grads ← mapExcept (point_gradients window_size mesh points_list)
    (List.range mesh.points.length)
  let dudx := grads.map (fun g => g.1.1)
  let dudy := grads.map (fun g => g.1.2)
  let dvdx := grads.map (fun g => g.2.1)
  let dvdy := grads.map (fun g => g.2.2)
  return euler_almansi_arrays dudx dudy dvdx dvdy

/-- pyvista field assignment `mesh['name'] = arr`. -/
def setField (m : PyMesh) (name : String) (vals : List NFloat) : PyMesh :=
  { m with pointData := setKey m.pointData name vals }

/-- The three field writes after a successful differentiation
(source lines 162-164 / 168-170). -/
noncomputable def write_strains (window_size : ℕ)
    (points_list : List (List ℕ)) (m : PyMesh) : PyMesh :=
  match differentiate_mesh window_size m points_list with
  | .ok strains =>
    setField (setField (setField m "exx" strains.1) "eyy" strains.2.1)
      "exy" strains.2.2
  | .error _ => m

/-- The `data_range == 'all'` loop (source lines 159-164): meshes processed
in order and mutated in place; the first failure aborts the loop, leaving
the failing mesh and all later meshes untouched. -/
noncomputable def processMeshes (window_size : ℕ)
    (points_list : List (List ℕ)) :
    List PyMesh → List PyMesh × Option String
  | [] => ([], none)
  | m :: rest =>
    match differentiate_mesh window_size m points_list with
    | .error e => (m :: rest, some e)
    | .ok strains =>
      let m' := setField (setField (setField m "exx" strains.1)
        "eyy" strains.2.1) "exy" strains.2.2
      let r := processMeshes window_size points_list rest
      (m' :: r.1, r.2)

/-- The metadata stamp of `window_differentation` (source lines 155-157). -/
def stamp_dic (md : List (String × MetaVal)) (data_range : String)
    (window_size : ℕ) : List (String × MetaVal) :=
  setKey (setKey (setKey md "dic_filter" (.mBool true))
    "window_size" (.mNat window_size)) "data_range" (.mStr data_range)

/-- `window_differentation` (source lines 77-170), with
`point_neighbors_levels` abstracted as `pnl`.  The result is the pair
(container state after the call, raised exception if any): Python mutates
the container in place, so on an exception the mutations already performed
persist — the neighbour topology is built from the FIRST snapshot
(line 87, IndexError on an empty container, before the metadata stamp),
then the metadata keys are stamped unconditionally (lines 155-157), then
the selected snapshots are processed. -/
noncomputable def window_differentation
    (pnl : PyMesh → ℕ → ℕ → List (List ℕ)) (sd : SpatialData)
    (data_range : String) (window_size : ℕ) :
    SpatialData × Option String :=
  match sd.data_sets with
  | [] => (sd, some "IndexError")
  | m0 :: _ =>
    let points_list := get_points_neighbours pnl m0 window_size
    let sd1 : SpatialData :=
      { sd with metadata := stamp_dic sd.metadata data_range window_size }
    if data_range = "all" then
      let r := processMeshes window_size points_list sd1.data_sets
      ({ sd1 with data_sets := r.1 }, r.2)
    else if data_range = "last" then
      match sd1.data_sets.getLast? with
      | none => (sd1, some "IndexError")
      | some last =>
        match differentiate_mesh window_size last points_list with
        | .error e => (sd1, some e)
        | .ok strains =>
          ({ sd1 with data_sets := sd1.data_sets.dropLast ++
              [setField (setField (setField last "exx" strains.1)
                "eyy" strains.2.1) "exy" strains.2.2] }, none)
    else (sd1, none)

lemma processMeshes_all_ok (window_size : ℕ) (pl : List (List ℕ)) :
    ∀ ms : List PyMesh,
      (∀ m ∈ ms, ∃ s, differentiate_mesh window_size m pl = .ok s) →
      processMeshes window_size pl ms =
        (ms.map (write_strains window_size pl), none) := by
  intro ms
  induction ms with
  | nil => intro _; rfl
  | cons m rest ih =>
    intro h
    obtain ⟨s, hs⟩ := h m (by simp)
    have hrest := ih (fun m' hm' => h m' (by simp [hm']))
    simp only [processMeshes, hs, hrest, List.map_cons]
    simp [write_strains, hs]

lemma processMeshes_first_error (window_size : ℕ) (pl : List (List ℕ)) :
    ∀ (pre : List PyMesh) (bad : PyMesh) (post : List PyMesh) (e : String),
      (∀ m ∈ pre, ∃ s, differentiate_mesh window_size m pl = .ok s) →
      differentiate_mesh window_size bad pl = .error e →
      processMeshes window_size pl (pre ++ bad :: post) =
        (pre.map (write_strains window_size pl) ++ bad :: post, some e) := by
  intro pre
  induction pre with
  | nil =>
    intro bad post e _ he
    simp only [List.nil_append, processMeshes, he, List.map_nil]
  | cons m t ih =>
    intro bad post e h he
    obtain ⟨s, hs⟩ := h m (by simp)
    have ht := ih bad post e (fun m' hm' => h m' (by simp [hm'])) he
    simp only [List.cons_append, processMeshes, hs, List.map_cons,
      List.append_eq]
    rw [ht]
    simp [write_strains, hs]

/-- C6: `window_differentation` stamps `dic_filter=true`, `window_size`
and `data_range` into the container metadata for every `data_range` value
(including invalid ones); with `data_range = "all"` every snapshot is
processed in order, with `"last"` only the final snapshot, and with any
other value no snapshot is touched.  (On an empty container line 87 raises
before the stamp, hence the nonemptiness hypothesis; the processing
conjuncts assume the per-snapshot fits succeed.) -/
theorem window_differentation_ranges
    (pnl : PyMesh → ℕ → ℕ → List (List ℕ)) (sd : SpatialData)
    (data_range : String) (window_size : ℕ) (m0 : PyMesh)
    (rest : List PyMesh) (hds : sd.data_sets = m0 :: rest) :
    (window_differentation pnl sd data_range window_size).1.metadata =
      stamp_dic sd.metadata data_range window_size ∧
    (window_differentation pnl sd data_range window_size).1.index = sd.index ∧
    (window_differentation pnl sd data_range window_size).1.time = sd.time ∧
    (window_differentation pnl sd data_range window_size).1.load = sd.load ∧
    (data_range ≠ "all" → data_range ≠ "last" →
      (window_differentation pnl sd data_range window_size).1.data_sets =
        sd.data_sets ∧
      (window_differentation pnl sd data_range window_size).2 = none) ∧
    (data_range = "all" →
      (∀ m ∈ sd.data_sets, ∃ s, differentiate_mesh window_size m
        (get_points_neighbours pnl m0 window_size) = .ok s) →
      (window_differentation pnl sd data_range window_size).1.data_sets =
        sd.data_sets.map (write_strains window_size
          (get_points_neighbours pnl m0 window_size)) ∧
      (window_differentation pnl sd data_range window_size).2 = none) ∧
    (data_range = "last" →
      ∀ last, sd.data_sets.getLast? = some last →
      (∃ s, differentiate_mesh window_size last
        (get_points_neighbours pnl m0 window_size) = .ok s) →
      (window_differentation pnl sd data_range window_size).1.data_sets =
        sd.data_sets.dropLast ++ [write_strains window_size
          (get_points_neighbours pnl m0 window_size) last] ∧
      (window_differentation pnl sd data_range window_size).2 = none) := by
  obtain ⟨ds, idx, tm, ld, md⟩ := sd
  simp only at hds
  subst hds
  by_cases hall : data_range = "all"
  · subst hall
    simp only [window_differentation, if_pos rfl]
    refine ⟨rfl, rfl, rfl, rfl, ?_, ?_, ?_⟩
    · intro hne _
      exact absurd rfl hne
    · intro _ hok
      rw [processMeshes_all_ok _ _ _ hok]
      exact ⟨rfl, rfl⟩
    · intro h
      exact absurd h (by decide)
  by_cases hlastr : data_range = "last"
  · subst hlastr
    simp only [window_differentation]
    split_ifs
    cases hl : (m0 :: rest).getLast? with
    | none =>
      refine ⟨rfl, rfl, rfl, rfl, ?_, ?_, ?_⟩
      · intro _ hne
        exact absurd rfl hne
      · intro h
        exact absurd h (by decide)
      · intro _ last hlast'
        exact Option.noConfusion hlast'
    | some last0 =>
      dsimp only
      cases hd : differentiate_mesh window_size last0
          (get_points_neighbours pnl m0 window_size) with
      | error e =>
        refine ⟨by trivial, by trivial, by trivial, by trivial, ?_, ?_, ?_⟩
        · intro _ hne
          exact absurd rfl hne
        · intro h
          exact absurd h (by decide)
        · intro _ last hlast' hex
          obtain rfl : last0 = last := Option.some.inj hlast'
          obtain ⟨s, hs⟩ := hex
          rw [hd] at hs
          cases hs
      | ok strains =>
        refine ⟨by trivial, by trivial, by trivial, by trivial, ?_, ?_, ?_⟩
        · intro _ hne
          exact absurd rfl hne
        · intro h
          exact absurd h (by decide)
        · intro _ last hlast' _
          obtain rfl : last0 = last := Option.some.inj hlast'
          refine ⟨?_, by trivial⟩
          simp [write_strains, hd]
  · simp only [window_differentation, if_neg hall, if_neg hlastr]
    exact ⟨by trivial, by trivial, by trivial, by trivial,
      fun _ _ => ⟨by trivial, by trivial⟩,
      fun h _ => absurd h hall, fun h _ _ _ => absurd h hlastr⟩

/-- A trivial neighbour query: no neighbours beyond the point itself. -/
def pnl0 : PyMesh → ℕ → ℕ → List (List ℕ) := fun _ _ _ => []

/-- A one-point snapshot carrying both displacement fields. -/
abbrev cMesh6 : PyMesh :=
  { bounds := ![0, 0, 0, 0, 0, 0], points := [(0, 0, 0)],
    pointData := [("disp_x", [some 0]), ("disp_y", [some 0])] }

abbrev cSD6 : SpatialData :=
  { data_sets := [cMesh6], index := [], time := [], load := [], metadata := [] }

lemma cMesh6_diff :
    differentiate_mesh 5 cMesh6 (get_points_neighbours pnl0 cMesh6 5) =
      .ok ([none], [none], [none]) := rfl

/-- Witness for C6 at the concrete container `cSD6` with
`data_range = "all"` and `window_size = 5`. -/
theorem window_differentation_ranges_witness :
    cSD6.data_sets = cMesh6 :: [] ∧
    ((window_differentation pnl0 cSD6 "all" 5).1.metadata =
      stamp_dic cSD6.metadata "all" 5 ∧
    (window_differentation pnl0 cSD6 "all" 5).1.index = cSD6.index ∧
    (window_differentation pnl0 cSD6 "all" 5).1.time = cSD6.time ∧
    (window_differentation pnl0 cSD6 "all" 5).1.load = cSD6.load ∧
    ("all" ≠ "all" → "all" ≠ "last" →
      (window_differentation pnl0 cSD6 "all" 5).1.data_sets =
        cSD6.data_sets ∧
      (window_differentation pnl0 cSD6 "all" 5).2 = none) ∧
    ("all" = "all" →
      (∀ m ∈ cSD6.data_sets, ∃ s, differentiate_mesh 5 m
        (get_points_neighbours pnl0 cMesh6 5) = .ok s) →
      (window_differentation pnl0 cSD6 "all" 5).1.data_sets =
        cSD6.data_sets.map
          (write_strains 5 (get_points_neighbours pnl0 cMesh6 5)) ∧
      (window_differentation pnl0 cSD6 "all" 5).2 = none) ∧
    ("all" = "last" →
      ∀ last, cSD6.data_sets.getLast? = some last →
      (∃ s, differentiate_mesh 5 last
        (get_points_neighbours pnl0 cMesh6 5) = .ok s) →
      (window_differentation pnl0 cSD6 "all" 5).1.data_sets =
        cSD6.data_sets.dropLast ++
          [write_strains 5 (get_points_neighbours pnl0 cMesh6 5) last] ∧
      (window_differentation pnl0 cSD6 "all" 5).2 = none)) ∧
    (∀ m ∈ cSD6.data_sets, ∃ s, differentiate_mesh 5 m
      (get_points_neighbours pnl0 cMesh6 5) = .ok s) := by
  refine ⟨rfl, window_differentation_ranges pnl0 cSD6 "all" 5 cMesh6 [] rfl, ?_⟩
  intro m hm
  rw [List.mem_singleton] at hm
  subst hm
  exact ⟨([none], [none], [none]), cMesh6_diff⟩

/-- A one-point snapshot with no fields at all: `disp_x` is missing. -/
abbrev cMesh2 : PyMesh :=
  { bounds := ![0, 0, 0, 0, 0, 0], points := [(0, 0, 0)], pointData := [] }

abbrev cSD2 : SpatialData :=
  { data_sets := [cMesh2], index := [], time := [], load := [], metadata := [] }

lemma cMesh2_diff :
    differentiate_mesh 5 cMesh2 (get_points_neighbours pnl0 cMesh2 5) =
      .error "KeyError: disp_x" := rfl

/-- C2 counterexample: on a container whose single snapshot lacks `disp_x`
(and with empty initial metadata), `window_differentation` raises KeyError
— but the container's metadata has already been stamped with
`dic_filter`/`window_size`/`data_range` (lines 155-157 run before the
loop), so the state is NOT left unchanged on error. -/
theorem window_differentation_missing_field_cex :
    (window_differentation pnl0 cSD2 "all" 5).2 =
      some "KeyError: disp_x" ∧
    (window_differentation pnl0 cSD2 "all" 5).1.metadata ≠
      cSD2.metadata := by
  have hrun : window_differentation pnl0 cSD2 "all" 5 =
      ({ cSD2 with metadata := stamp_dic [] "all" 5 },
       some "KeyError: disp_x") := by
    simp only [window_differentation, if_pos rfl]
    rw [show processMeshes 5 (get_points_neighbours pnl0 cMesh2 5) [cMesh2] =
        ([cMesh2], some "KeyError: disp_x") from by
      simp only [processMeshes, cMesh2_diff]]
    simp
  rw [hrun]
  refine ⟨rfl, ?_⟩
  simp [stamp_dic, setKey]

/-- C2 (amended): a missing `disp_x`/`disp_y` field on a selected snapshot
aborts `window_differentation` with the KeyError: the failing snapshot and
every later snapshot get no fields written — but the container's metadata
has already been stamped with `dic_filter=true`, `window_size` and
`data_range` (the stamp precedes the loop), and snapshots processed before
the failure keep their new strain fields.  The metadata is NOT left
unchanged on error. -/
theorem window_differentation_abort_state
    (pnl : PyMesh → ℕ → ℕ → List (List ℕ)) (sd : SpatialData)
    (window_size : ℕ) (m0 : PyMesh) (rest pre : List PyMesh) (bad : PyMesh)
    (post : List PyMesh) (e : String)
    (hds : sd.data_sets = m0 :: rest)
    (hsplit : sd.data_sets = pre ++ bad :: post)
    (hok : ∀ m ∈ pre, ∃ s, differentiate_mesh window_size m
      (get_points_neighbours pnl m0 window_size) = .ok s)
    (he : differentiate_mesh window_size bad
      (get_points_neighbours pnl m0 window_size) = .error e) :
    window_differentation pnl sd "all" window_size =
      ({ sd with
          metadata := stamp_dic sd.metadata "all" window_size,
          data_sets := pre.map (write_strains window_size
            (get_points_neighbours pnl m0 window_size)) ++ bad :: post },
       some e) := by
  obtain ⟨ds, idx, tm, ld, md⟩ := sd
  simp only at hds hsplit
  subst hds
  simp only [window_differentation, if_pos rfl]
  rw [hsplit, processMeshes_first_error window_size
    (get_points_neighbours pnl m0 window_size) pre bad post e hok he]
  simp

/-- Witness for the amended C2 at the concrete container `cSD2`. -/
theorem window_differentation_abort_state_witness :
    (cSD2.data_sets = cMesh2 :: [] ∧
     cSD2.data_sets = [] ++ cMesh2 :: [] ∧
     differentiate_mesh 5 cMesh2 (get_points_neighbours pnl0 cMesh2 5) =
       .error "KeyError: disp_x") ∧
    window_differentation pnl0 cSD2 "all" 5 =
      ({ cSD2 with
          metadata := stamp_dic cSD2.metadata "all" 5,
          data_sets := List.map (write_strains 5
            (get_points_neighbours pnl0 cMesh2 5)) [] ++ cMesh2 :: [] },
       some "KeyError: disp_x") := by
  refine ⟨⟨rfl, rfl, cMesh2_diff⟩, ?_⟩
  exact window_differentation_abort_state pnl0 cSD2 5 cMesh2 [] [] cMesh2 []
    "KeyError: disp_x" rfl rfl (by simp) cMesh2_diff
